import Mathlib

/-!
Verification of the T9 Simple ReAct Agent notebook
(`src/W2025/Tutorials/T9/T9_SimpleAgent.ipynb`).

This file gives a shallow embedding of the notebook's core code:

* `model_memory` and `apply_conversion` (the two tool handlers),
* the `ACTION_PATTERN` response parser,
* the `ReActAgent` conversation state (`add_message`),
* the `query` loop over `KNOWN_ACTIONS`.

Python machine reals (`float`) are modelled exactly: every numeric literal
that `float()` accepts denotes an exact decimal, represented as a fraction of
machine-unbounded integers, and arithmetic is exact fraction arithmetic.
IEEE double rounding is not modelled; all concrete values appearing in the
theorems below are short decimals whose two-decimal formatting is unaffected
by that abstraction.  `inf`/`-inf`/`nan` inputs (which Python's `float()`
accepts) are represented by dedicated constructors.

Python exceptions are modelled with `Except`: the body of `apply_conversion`
returns `Except PyError String`, and the surrounding `try/except` of the
source catches exactly `ValueError` and `SyntaxError`, letting every other
exception (`NameError`, `ZeroDivisionError`, `TypeError`, ...) propagate,
as the Python code does.
-/

/-- Python exception kinds that can arise in the embedded code.
`valueError` models `ValueError` (from `float()`), `syntaxError` models
`SyntaxError` (from `eval` on unparseable input), `nameError` models
`NameError` (from `eval` of an unbound identifier; the identifiers used in
the theorems below are unbound in the notebook's global namespace too),
`zeroDivisionError` models `ZeroDivisionError`, `typeError` models
`TypeError` (e.g. multiplying a float by `None`), and `unmodelled` marks
evaluations outside the fidelity scope of this embedding (a power with a
non-integral exponent, whose exact real value is not rational). -/
inductive PyError where
  | valueError : PyError
  | syntaxError : PyError
  | nameError (n : String) : PyError
  | zeroDivisionError : PyError
  | typeError : PyError
  | unmodelled : PyError
deriving DecidableEq, Repr

deriving instance DecidableEq for Except

/-- An exact fraction: numerator over a positive natural denominator.  The
representation is not normalized; all operations keep `d` positive.  This is
the exact-value model of a finite Python float. -/
structure Frac where
  n : ℤ
  d : ℕ
deriving DecidableEq, Repr

/-- Embed an integer. -/
def Frac.ofInt (z : ℤ) : Frac := ⟨z, 1⟩

/-- Exact negation. -/
def Frac.neg (a : Frac) : Frac := ⟨-a.n, a.d⟩

/-- Exact multiplication. -/
def Frac.mul (a b : Frac) : Frac := ⟨a.n * b.n, a.d * b.d⟩

/-- Exact addition. -/
def Frac.add (a b : Frac) : Frac := ⟨a.n * (b.d : ℤ) + b.n * (a.d : ℤ), a.d * b.d⟩

/-- Exact division; the caller must rule out `b.n = 0`. -/
def Frac.div (a b : Frac) : Frac :=
  if b.n < 0 then ⟨-(a.n * (b.d : ℤ)), a.d * (-b.n).toNat⟩
  else ⟨a.n * (b.d : ℤ), a.d * b.n.toNat⟩

/-- Value comparison (valid because denominators are positive). -/
def Frac.lt (a b : Frac) : Bool := a.n * (b.d : ℤ) < b.n * (a.d : ℤ)

/-- Is the value zero? -/
def Frac.isZero (a : Frac) : Bool := a.n = 0

/-- Is the value negative? -/
def Frac.isNeg (a : Frac) : Bool := a.n < 0

/-- Floor of the exact value (Python `math.floor` / `//` rounding). -/
def Frac.floor (a : Frac) : ℤ := Int.fdiv a.n (a.d : ℤ)

/-- A Python float value: an exact fraction, or one of the special values
`inf`, `-inf`, `nan`. -/
inductive PyNum where
  | num (q : Frac) : PyNum
  | inf : PyNum
  | ninf : PyNum
  | nan : PyNum
deriving DecidableEq, Repr

/-- Python whitespace characters stripped by `str.strip()` and by `float()`
(ASCII subset; the Unicode space characters Python also strips do not occur
in this development). -/
def pyWs (c : Char) : Bool :=
  c = ' ' || c = '\t' || c = '\n' || c = '\r' || c = '\x0b' || c = '\x0c'

/-- Model of Python `str.strip()` (no arguments): remove leading and trailing
whitespace. -/
def pyStrip (s : String) : String :=
  (((s.toList.dropWhile pyWs).reverse.dropWhile pyWs).reverse).asString

/-- Model of Python `str.lower()` (ASCII; all table keys in the source are
ASCII). -/
def pyLower (s : String) : String :=
  (s.toList.map Char.toLower).asString

/-- After an initial digit, consume `(digit | '_' digit)*`, implementing
Python's rule that an underscore in a numeric literal must be surrounded by
digits.  Returns the digits consumed (underscores dropped) and the rest.
The explicit fuel (one unit per character suffices) keeps the recursion
structural so that the kernel can evaluate it. -/
def digitsTailF : ℕ → List Char → (List Char × List Char)
  | 0, cs => ([], cs)
  | _ + 1, [] => ([], [])
  | fuel + 1, c :: rest =>
    if c.isDigit then
      let p := digitsTailF fuel rest
      (c :: p.1, p.2)
    else if c = '_' then
      match rest with
      | d :: rest2 =>
        if d.isDigit then
          let p := digitsTailF fuel rest2
          (d :: p.1, p.2)
        else ([], c :: rest)
      | [] => ([], [c])
    else ([], c :: rest)

/-- `digitsTailF` with enough fuel for its whole input. -/
def digitsTail (cs : List Char) : List Char × List Char :=
  digitsTailF cs.length cs

/-- Parse a nonempty digit run (with Python's underscore rule).  Returns the
digit characters and the unconsumed rest, or `none` if the input does not
start with a digit. -/
def parseDigits (cs : List Char) : Option (List Char × List Char) :=
  match cs with
  | [] => none
  | c :: rest =>
    if c.isDigit then
      let p := digitsTail rest
      some (c :: p.1, p.2)
    else none

/-- Numeric value of a digit string. -/
def natOfDigits (ds : List Char) : ℕ :=
  ds.foldl (fun a c => a * 10 + (c.toNat - 48)) 0

/-- Ten to an integer power, as an exact fraction. -/
def pow10 : ℤ → Frac
  | Int.ofNat n => ⟨(10 : ℤ) ^ n, 1⟩
  | Int.negSucc n => ⟨1, 10 ^ (n + 1)⟩

/-- Parse the mantissa of a Python float literal:
`digits ['.' [digits]] | '.' digits`, yielding its exact value. -/
def parseMantissa (cs : List Char) : Option (Frac × List Char) :=
  match parseDigits cs with
  | some (ip, rest) =>
    match rest with
    | '.' :: rest2 =>
      match parseDigits rest2 with
      | some (fp, rest3) =>
        some (⟨(natOfDigits ip : ℤ) * 10 ^ fp.length + (natOfDigits fp : ℤ), 10 ^ fp.length⟩, rest3)
      | none => some (Frac.ofInt (natOfDigits ip : ℤ), rest2)
    | _ => some (Frac.ofInt (natOfDigits ip : ℤ), rest)
  | none =>
    match cs with
    | '.' :: rest2 =>
      match parseDigits rest2 with
      | some (fp, rest3) => some (⟨(natOfDigits fp : ℤ), 10 ^ fp.length⟩, rest3)
      | none => none
    | _ => none

/-- Model of Python's `float(str)` builtin: strip whitespace, optional sign,
then either (case-insensitively) `inf`/`infinity`/`nan` or a decimal literal
with optional fraction and exponent.  `none` models `ValueError`.  Overflow
of huge exponents to `inf` is not modelled (the exact decimal is kept). -/
def pyFloat (s : String) : Option PyNum :=
  let cs0 := (pyStrip s).toList
  let sgnCs : (Bool × List Char) :=
    match cs0 with
    | '+' :: r => (false, r)
    | '-' :: r => (true, r)
    | _ => (false, cs0)
  let neg := sgnCs.1
  let cs := sgnCs.2
  let low := cs.map Char.toLower
  if low = [ 'i', 'n', 'f' ] || low = [ 'i', 'n', 'f', 'i', 'n', 'i', 't', 'y' ] then
    some (if neg then PyNum.ninf else PyNum.inf)
  else if low = [ 'n', 'a', 'n' ] then
    some PyNum.nan
  else
    match parseMantissa cs with
    | none => none
    | some (q, rest) =>
      let signed := if neg then q.neg else q
      match rest with
      | [] => some (PyNum.num signed)
      | e :: rest2 =>
        if e = 'e' || e = 'E' then
          let esgnCs : (Bool × List Char) :=
            match rest2 with
            | '+' :: r => (false, r)
            | '-' :: r => (true, r)
            | _ => (false, rest2)
          match parseDigits esgnCs.2 with
          | some (ds, []) =>
            let ex : ℤ := if esgnCs.1 then -(natOfDigits ds : ℤ) else (natOfDigits ds : ℤ)
            some (PyNum.num (signed.mul (pow10 ex)))
          | _ => none
        else none

/-- IEEE multiplication on modelled Python floats (exact on fractions). -/
def pyMul : PyNum → PyNum → PyNum
  | PyNum.nan, _ => PyNum.nan
  | _, PyNum.nan => PyNum.nan
  | PyNum.num a, PyNum.num b => PyNum.num (a.mul b)
  | PyNum.inf, PyNum.num b =>
    if b.isZero then PyNum.nan else if b.isNeg then PyNum.ninf else PyNum.inf
  | PyNum.num a, PyNum.inf =>
    if a.isZero then PyNum.nan else if a.isNeg then PyNum.ninf else PyNum.inf
  | PyNum.ninf, PyNum.num b =>
    if b.isZero then PyNum.nan else if b.isNeg then PyNum.inf else PyNum.ninf
  | PyNum.num a, PyNum.ninf =>
    if a.isZero then PyNum.nan else if a.isNeg then PyNum.inf else PyNum.ninf
  | PyNum.inf, PyNum.inf => PyNum.inf
  | PyNum.inf, PyNum.ninf => PyNum.ninf
  | PyNum.ninf, PyNum.inf => PyNum.ninf
  | PyNum.ninf, PyNum.ninf => PyNum.inf

/-- IEEE addition on modelled Python floats (exact on fractions). -/
def pyAdd : PyNum → PyNum → PyNum
  | PyNum.nan, _ => PyNum.nan
  | _, PyNum.nan => PyNum.nan
  | PyNum.num a, PyNum.num b => PyNum.num (a.add b)
  | PyNum.inf, PyNum.ninf => PyNum.nan
  | PyNum.ninf, PyNum.inf => PyNum.nan
  | PyNum.inf, _ => PyNum.inf
  | _, PyNum.inf => PyNum.inf
  | PyNum.ninf, _ => PyNum.ninf
  | _, PyNum.ninf => PyNum.ninf

/-- Exponent of `p` in `n` (loop with explicit fuel; `fuel = n` suffices). -/
def padicFuel (p : ℕ) : ℕ → ℕ → ℕ
  | 0, _ => 0
  | fuel + 1, n =>
    if 2 ≤ p ∧ 0 < n ∧ n % p = 0 then 1 + padicFuel p fuel (n / p) else 0

/-- Pad a digit string on the left with zeros to length `k`. -/
def padZeros (k : ℕ) (s : String) : String :=
  (List.replicate (k - s.length) '0').asString ++ s

/-- Decimal representation of a nonnegative fraction with a terminating
decimal expansion, with the minimal number of fractional digits (at least
one), e.g. `5 ↦ "5.0"`, `41/10 ↦ "4.1"`.  For a non-terminating value the
expansion is truncated at 17 fractional digits (such values never arise from
parsed decimal literals, which is the only use below). -/
def reprFracNN (q : Frac) : String :=
  let g := Nat.gcd q.n.toNat q.d
  let n := q.n.toNat / g
  let d := q.d / g
  if d = 1 then toString n ++ ".0"
  else
    let a := padicFuel 2 d d
    let b := padicFuel 5 d d
    let k := if d = 2 ^ a * 5 ^ b then max a b else 17
    let m := n * 10 ^ k / d
    toString (m / 10 ^ k) ++ "." ++ padZeros k (toString (m % 10 ^ k))

/-- Model of Python's `str`/`repr` on a float (the `f"{num}"` formatting used
by `apply_conversion`).  Exact for values with a short terminating decimal
expansion in the range where Python uses positional notation; Python's switch
to scientific notation (below 1e-4 / at or above 1e16) is not modelled. -/
def pyRepr : PyNum → String
  | PyNum.inf => "inf"
  | PyNum.ninf => "-inf"
  | PyNum.nan => "nan"
  | PyNum.num q => if q.isNeg then "-" ++ reprFracNN q.neg else reprFracNN q

/-- Round `n100 / d` (a nonnegative value scaled by 100) to an integer, ties
to even: the rounding Python's `%.2f` performs on the exact binary value.
Exact-decimal ties, which IEEE doubles essentially never present exactly, are
resolved to even; this is the documented determinism of the formatting
model. -/
def roundHalfEven (n100 : ℤ) (d : ℕ) : ℤ :=
  let f := Int.fdiv n100 (d : ℤ)
  let rem := n100 - f * (d : ℤ)
  if 2 * rem < (d : ℤ) then f
  else if 2 * rem > (d : ℤ) then f + 1
  else if f % 2 = 0 then f else f + 1

/-- Two-decimal fixed formatting of a nonnegative fraction (`%.2f`). -/
def fmt2nn (q : Frac) : String :=
  let m := (roundHalfEven (q.n * 100) q.d).toNat
  toString (m / 100) ++ "." ++ padZeros 2 (toString (m % 100))

/-- Model of Python's `f"{x:.2f}"` formatting. -/
def fmt2 : PyNum → String
  | PyNum.inf => "inf"
  | PyNum.ninf => "-inf"
  | PyNum.nan => "nan"
  | PyNum.num q => if q.isNeg then "-" ++ fmt2nn q.neg else fmt2nn q

example : pyFloat "5" = some (PyNum.num ⟨5, 1⟩) := by decide
example : pyFloat " 3.28084" = some (PyNum.num ⟨328084, 100000⟩) := by decide
example : pyFloat "9/5" = none := by decide
example : pyFloat "1_0.5e1" = some (PyNum.num ⟨1050, 10⟩) := by decide
example : pyFloat "1_" = none := by decide
example : pyFloat "-inf" = some PyNum.ninf := by decide
example : pyRepr (PyNum.num ⟨5, 1⟩) = "5.0" := by decide
example : fmt2 (PyNum.num ⟨164042, 10000⟩) = "16.40" := by decide
example : fmt2 (PyNum.num ⟨68, 1⟩) = "68.00" := by decide

/-- A Python value produced by evaluating a multiplier expression: a number
(ints, bools and floats all carried as exact fractions) or `None`. -/
inductive PyVal where
  | vnum (q : Frac) : PyVal
  | vnone : PyVal
deriving DecidableEq, Repr

/-- Tokens of the arithmetic-expression fragment of Python modelled for the
`eval` call in `apply_conversion`. -/
inductive Tok where
  | num (q : Frac) : Tok
  | ident (s : String) : Tok
  | plus : Tok
  | minus : Tok
  | star : Tok
  | slash : Tok
  | dslash : Tok
  | percent : Tok
  | dstar : Tok
  | lpar : Tok
  | rpar : Tok
deriving DecidableEq, Repr

/-- Identifier characters (ASCII scope; Unicode identifiers are outside the
fidelity scope of the `eval` model). -/
def identChar (c : Char) : Bool :=
  c.isAlpha || c.isDigit || c = '_'

/-- Scan one numeric literal token starting at a digit or a dot: decimal
integer literals (with Python's no-leading-zero rule) and float literals
with optional fraction and exponent.  Hex/octal/binary and imaginary
literals are outside the fidelity scope and surface as `syntaxError`. -/
def tokNum (cs : List Char) : Except PyError (Frac × List Char) :=
  match parseMantissa cs with
  | none => Except.error PyError.syntaxError
  | some (q, rest) =>
    match rest with
    | '.' :: _ =>
      -- parseMantissa already consumed any fraction; a second dot here
      -- starts another number token and the juxtaposition is a syntax error
      Except.error PyError.syntaxError
    | e :: rest2 =>
      if e = 'e' || e = 'E' then
        let esgnCs : (Bool × List Char) :=
          match rest2 with
          | '+' :: r => (false, r)
          | '-' :: r => (true, r)
          | _ => (false, rest2)
        match parseDigits esgnCs.2 with
        | some (ds, rest3) =>
          let ex : ℤ := if esgnCs.1 then -(natOfDigits ds : ℤ) else (natOfDigits ds : ℤ)
          Except.ok (q.mul (pow10 ex), rest3)
        | none => Except.error PyError.syntaxError
      else
        -- a literal made of digits only is a decimal integer literal and
        -- (in Python 3) must not have a leading zero unless it is all zeros
        let consumed := cs.take (cs.length - rest.length)
        if consumed.all (fun ch => ch.isDigit || ch = '_') &&
            (match consumed with
             | c0 :: _ :: _ => c0 = '0' && consumed.any (fun ch => ch.isDigit && ch ≠ '0')
             | _ => false) then
          Except.error PyError.syntaxError
        else Except.ok (q, e :: rest2)
    | [] =>
      let consumed := cs
      if consumed.all (fun ch => ch.isDigit || ch = '_') &&
          (match consumed with
           | c0 :: _ :: _ => c0 = '0' && consumed.any (fun ch => ch.isDigit && ch ≠ '0')
           | _ => false) then
        Except.error PyError.syntaxError
      else Except.ok (q, [])

/-- Tokenizer for the modelled expression fragment (fuel-structural; one unit
of fuel per character suffices).  Characters outside the fragment produce
`syntaxError`, as compiling them in Python would. -/
def tokenizeF : ℕ → List Char → Except PyError (List Tok)
  | 0, _ => Except.error PyError.syntaxError
  | _ + 1, [] => Except.ok []
  | fuel + 1, c :: rest =>
    if c = ' ' || c = '\t' then tokenizeF fuel rest
    else if c = '(' then (tokenizeF fuel rest).map (fun ts => Tok.lpar :: ts)
    else if c = ')' then (tokenizeF fuel rest).map (fun ts => Tok.rpar :: ts)
    else if c = '+' then (tokenizeF fuel rest).map (fun ts => Tok.plus :: ts)
    else if c = '-' then (tokenizeF fuel rest).map (fun ts => Tok.minus :: ts)
    else if c = '%' then (tokenizeF fuel rest).map (fun ts => Tok.percent :: ts)
    else if c = '*' then
      match rest with
      | '*' :: r => (tokenizeF fuel r).map (fun ts => Tok.dstar :: ts)
      | _ => (tokenizeF fuel rest).map (fun ts => Tok.star :: ts)
    else if c = '/' then
      match rest with
      | '/' :: r => (tokenizeF fuel r).map (fun ts => Tok.dslash :: ts)
      | _ => (tokenizeF fuel rest).map (fun ts => Tok.slash :: ts)
    else if c.isDigit || (c = '.' && (match rest with
        | d :: _ => d.isDigit
        | [] => false)) then
      match tokNum (c :: rest) with
      | Except.error e => Except.error e
      | Except.ok (q, rest2) => (tokenizeF fuel rest2).map (fun ts => Tok.num q :: ts)
    else if c.isAlpha || c = '_' then
      let w := (c :: rest).takeWhile identChar
      let r2 := (c :: rest).dropWhile identChar
      (tokenizeF fuel r2).map (fun ts => Tok.ident w.asString :: ts)
    else Except.error PyError.syntaxError

/-- Tokenize a multiplier string. -/
def tokenize (s : String) : Except PyError (List Tok) :=
  tokenizeF (s.toList.length + 1) s.toList

/-- Abstract syntax of the modelled expression fragment. -/
inductive PyExpr where
  | lit (q : Frac) : PyExpr
  | name (s : String) : PyExpr
  | neg (a : PyExpr) : PyExpr
  | pos (a : PyExpr) : PyExpr
  | add (a b : PyExpr) : PyExpr
  | sub (a b : PyExpr) : PyExpr
  | mul (a b : PyExpr) : PyExpr
  | div (a b : PyExpr) : PyExpr
  | fdv (a b : PyExpr) : PyExpr
  | mod (a b : PyExpr) : PyExpr
  | pw (a b : PyExpr) : PyExpr
deriving DecidableEq, Repr

/-- Python keywords: an identifier token equal to one of these is a syntax
error in an arithmetic expression (`True`/`False`/`None` are value atoms and
are resolved during evaluation instead). -/
def pyKeywords : List String :=
  [ "and", "as", "assert", "async", "await", "break", "class", "continue",
    "def", "del", "elif", "else", "except", "finally", "for", "from",
    "global", "if", "import", "in", "is", "lambda", "nonlocal", "not",
    "or", "pass", "raise", "return", "try", "while", "with", "yield" ]

/-- Helper for `pySplit`: walk the characters, collecting the current field
(in reverse) and emitting it at each separator. -/
def pySplitAux (sep : Char) : List Char → List Char → List String
  | [], acc => [acc.reverse.asString]
  | c :: rest, acc =>
    if c = sep then acc.reverse.asString :: pySplitAux sep rest []
    else pySplitAux sep rest (c :: acc)

/-- Model of Python `str.split(sep)` with a one-character separator (the
source only splits on `","` and `"\n"`): splitting the empty string gives
`[""]`, adjacent separators give empty fields. -/
def pySplit (s : String) (sep : Char) : List String :=
  pySplitAux sep s.toList []

/-- Power on exact fractions: defined for integral exponents (negative ones
invert, raising `ZeroDivisionError` on a zero base); non-integral exponents
have irrational values in general and are outside the model's scope. -/
def fracPow (a b : Frac) : Except PyError Frac :=
  if b.n % (b.d : ℤ) = 0 then
    let e := Int.fdiv b.n (b.d : ℤ)
    if 0 ≤ e then Except.ok ⟨a.n ^ e.toNat, a.d ^ e.toNat⟩
    else if a.n = 0 then Except.error PyError.zeroDivisionError
    else Except.ok (Frac.div ⟨1, 1⟩ ⟨a.n ^ (-e).toNat, a.d ^ (-e).toNat⟩)
  else Except.error PyError.unmodelled

mutual

/-- Additive level: `term (('+' | '-') term)*`. -/
def parseE : ℕ → List Tok → Except PyError (PyExpr × List Tok)
  | 0, _ => Except.error PyError.syntaxError
  | f + 1, toks =>
    match parseT f toks with
    | Except.ok (a, rest) => parseEL f a rest
    | Except.error e => Except.error e

/-- Left fold of the additive operators. -/
def parseEL : ℕ → PyExpr → List Tok → Except PyError (PyExpr × List Tok)
  | 0, _, _ => Except.error PyError.syntaxError
  | f + 1, acc, Tok.plus :: r =>
    match parseT f r with
    | Except.ok (b, rest) => parseEL f (PyExpr.add acc b) rest
    | Except.error e => Except.error e
  | f + 1, acc, Tok.minus :: r =>
    match parseT f r with
    | Except.ok (b, rest) => parseEL f (PyExpr.sub acc b) rest
    | Except.error e => Except.error e
  | _ + 1, acc, toks => Except.ok (acc, toks)

/-- Multiplicative level: `unary (('*' | '/' | '//' | '%') unary)*`. -/
def parseT : ℕ → List Tok → Except PyError (PyExpr × List Tok)
  | 0, _ => Except.error PyError.syntaxError
  | f + 1, toks =>
    match parseU f toks with
    | Except.ok (a, rest) => parseTL f a rest
    | Except.error e => Except.error e

/-- Left fold of the multiplicative operators. -/
def parseTL : ℕ → PyExpr → List Tok → Except PyError (PyExpr × List Tok)
  | 0, _, _ => Except.error PyError.syntaxError
  | f + 1, acc, Tok.star :: r =>
    match parseU f r with
    | Except.ok (b, rest) => parseTL f (PyExpr.mul acc b) rest
    | Except.error e => Except.error e
  | f + 1, acc, Tok.slash :: r =>
    match parseU f r with
    | Except.ok (b, rest) => parseTL f (PyExpr.div acc b) rest
    | Except.error e => Except.error e
  | f + 1, acc, Tok.dslash :: r =>
    match parseU f r with
    | Except.ok (b, rest) => parseTL f (PyExpr.fdv acc b) rest
    | Except.error e => Except.error e
  | f + 1, acc, Tok.percent :: r =>
    match parseU f r with
    | Except.ok (b, rest) => parseTL f (PyExpr.mod acc b) rest
    | Except.error e => Except.error e
  | _ + 1, acc, toks => Except.ok (acc, toks)

/-- Unary level: `('+' | '-') unary | power` (in Python, `**` binds tighter
than a unary minus on its left, and the right operand of `**` is again a
unary expression). -/
def parseU : ℕ → List Tok → Except PyError (PyExpr × List Tok)
  | 0, _ => Except.error PyError.syntaxError
  | f + 1, Tok.plus :: r =>
    match parseU f r with
    | Except.ok (a, rest) => Except.ok (PyExpr.pos a, rest)
    | Except.error e => Except.error e
  | f + 1, Tok.minus :: r =>
    match parseU f r with
    | Except.ok (a, rest) => Except.ok (PyExpr.neg a, rest)
    | Except.error e => Except.error e
  | f + 1, toks => parseP f toks

/-- Power level: `atom ['**' unary]`. -/
def parseP : ℕ → List Tok → Except PyError (PyExpr × List Tok)
  | 0, _ => Except.error PyError.syntaxError
  | f + 1, toks =>
    match parseA f toks with
    | Except.ok (a, Tok.dstar :: r) =>
      match parseU f r with
      | Except.ok (b, rest) => Except.ok (PyExpr.pw a b, rest)
      | Except.error e => Except.error e
    | Except.ok (a, rest) => Except.ok (a, rest)
    | Except.error e => Except.error e

/-- Atoms: numbers, identifiers, parenthesised expressions.  A keyword in
atom position is a syntax error (as compiling it in Python would be). -/
def parseA : ℕ → List Tok → Except PyError (PyExpr × List Tok)
  | 0, _ => Except.error PyError.syntaxError
  | _ + 1, Tok.num q :: r => Except.ok (PyExpr.lit q, r)
  | _ + 1, Tok.ident s :: r =>
    if pyKeywords.contains s then Except.error PyError.syntaxError
    else Except.ok (PyExpr.name s, r)
  | f + 1, Tok.lpar :: r =>
    match parseE f r with
    | Except.ok (a, Tok.rpar :: rest) => Except.ok (a, rest)
    | Except.ok _ => Except.error PyError.syntaxError
    | Except.error e => Except.error e
  | _ + 1, _ => Except.error PyError.syntaxError

end

/-- Evaluate a parsed expression.  `True`/`False`/`None` are the only bound
names (matching their status as literals); every other identifier raises
`NameError`, as it would in the notebook for the names the theorems use. -/
def evalExpr : PyExpr → Except PyError PyVal
  | PyExpr.lit q => Except.ok (PyVal.vnum q)
  | PyExpr.name s =>
    if s = "True" then Except.ok (PyVal.vnum ⟨1, 1⟩)
    else if s = "False" then Except.ok (PyVal.vnum ⟨0, 1⟩)
    else if s = "None" then Except.ok PyVal.vnone
    else Except.error (PyError.nameError s)
  | PyExpr.pos a =>
    match evalExpr a with
    | Except.ok (PyVal.vnum q) => Except.ok (PyVal.vnum q)
    | Except.ok PyVal.vnone => Except.error PyError.typeError
    | Except.error e => Except.error e
  | PyExpr.neg a =>
    match evalExpr a with
    | Except.ok (PyVal.vnum q) => Except.ok (PyVal.vnum q.neg)
    | Except.ok PyVal.vnone => Except.error PyError.typeError
    | Except.error e => Except.error e
  | PyExpr.add a b =>
    match evalExpr a, evalExpr b with
    | Except.ok (PyVal.vnum x), Except.ok (PyVal.vnum y) => Except.ok (PyVal.vnum (x.add y))
    | Except.error e, _ => Except.error e
    | _, Except.error e => Except.error e
    | _, _ => Except.error PyError.typeError
  | PyExpr.sub a b =>
    match evalExpr a, evalExpr b with
    | Except.ok (PyVal.vnum x), Except.ok (PyVal.vnum y) => Except.ok (PyVal.vnum (x.add y.neg))
    | Except.error e, _ => Except.error e
    | _, Except.error e => Except.error e
    | _, _ => Except.error PyError.typeError
  | PyExpr.mul a b =>
    match evalExpr a, evalExpr b with
    | Except.ok (PyVal.vnum x), Except.ok (PyVal.vnum y) => Except.ok (PyVal.vnum (x.mul y))
    | Except.error e, _ => Except.error e
    | _, Except.error e => Except.error e
    | _, _ => Except.error PyError.typeError
  | PyExpr.div a b =>
    match evalExpr a, evalExpr b with
    | Except.ok (PyVal.vnum x), Except.ok (PyVal.vnum y) =>
      if y.isZero then Except.error PyError.zeroDivisionError
      else Except.ok (PyVal.vnum (x.div y))
    | Except.error e, _ => Except.error e
    | _, Except.error e => Except.error e
    | _, _ => Except.error PyError.typeError
  | PyExpr.fdv a b =>
    match evalExpr a, evalExpr b with
    | Except.ok (PyVal.vnum x), Except.ok (PyVal.vnum y) =>
      if y.isZero then Except.error PyError.zeroDivisionError
      else Except.ok (PyVal.vnum (Frac.ofInt ((x.div y).floor)))
    | Except.error e, _ => Except.error e
    | _, Except.error e => Except.error e
    | _, _ => Except.error PyError.typeError
  | PyExpr.mod a b =>
    match evalExpr a, evalExpr b with
    | Except.ok (PyVal.vnum x), Except.ok (PyVal.vnum y) =>
      if y.isZero then Except.error PyError.zeroDivisionError
      else Except.ok (PyVal.vnum (x.add ((y.mul (Frac.ofInt ((x.div y).floor))).neg)))
    | Except.error e, _ => Except.error e
    | _, Except.error e => Except.error e
    | _, _ => Except.error PyError.typeError
  | PyExpr.pw a b =>
    match evalExpr a, evalExpr b with
    | Except.ok (PyVal.vnum x), Except.ok (PyVal.vnum y) =>
      match fracPow x y with
      | Except.ok q => Except.ok (PyVal.vnum q)
      | Except.error e => Except.error e
    | Except.error e, _ => Except.error e
    | _, Except.error e => Except.error e
    | _, _ => Except.error PyError.typeError

/-- Model of the `eval(multiplier.strip())` call in `apply_conversion`,
restricted to the arithmetic-expression fragment of Python: tokenize, parse
the whole token stream, then evaluate.  Unparseable input is `syntaxError`
(caught by the handler), an unbound identifier is `nameError` (uncaught).
Python constructs outside the fragment (boolean operators, strings,
comprehensions, calls, ...) are modelled as `syntaxError`. -/
def pyEval (s : String) : Except PyError PyVal :=
  match tokenize s with
  | Except.error e => Except.error e
  | Except.ok toks =>
    match parseE (8 * toks.length + 8) toks with
    | Except.ok (a, []) => evalExpr a
    | Except.ok (_, _ :: _) => Except.error PyError.syntaxError
    | Except.error e => Except.error e

/-- The fixed conversion-rate table of `model_memory`. -/
def rates : List (String × String) :=
  [ ("meters to feet", "3.28084"),
    ("kilometers to miles", "0.621371"),
    ("kilograms to pounds", "2.20462"),
    ("celsius to fahrenheit", "9/5,32") ]

/-- `model_memory(unit)`: case-insensitive lookup of a conversion rate. -/
def model_memory (unit : String) : String :=
  match rates.find? (fun kv => kv.1 = pyLower unit) with
  | some kv => kv.2
  | none => "No conversion rate found for " ++ unit

/-- The reverse unit table of `apply_conversion`, keyed by the raw rate
field. -/
def unit_map : List (String × (String × String)) :=
  [ ("3.28084", ("meters", "feet")),
    ("0.621371", ("kilometers", "miles")),
    ("2.20462", ("kilograms", "pounds")) ]

/-- Lift an `eval` result into a float for the arithmetic
`num * multiplier`; multiplying by `None` raises `TypeError`. -/
def toPyNum (v : PyVal) : Except PyError PyNum :=
  match v with
  | PyVal.vnum q => Except.ok (PyNum.num q)
  | PyVal.vnone => Except.error PyError.typeError

/-- The body of `apply_conversion` (the code inside the `try`): errors model
the Python exceptions the statements can raise, in the order the statements
execute (`float(value_str.strip())`, then `eval(multiplier.strip())`, then
`float(offset.strip())`, then the arithmetic). -/
def applyConvBody (rate : String) : Except PyError String :=
  match pySplit rate ',' with
  | [multiplier, offset, value_str] =>
    match pyFloat (pyStrip value_str) with
    | none => Except.error PyError.valueError
    | some num =>
      match pyEval (pyStrip multiplier) with
      | Except.error e => Except.error e
      | Except.ok mv =>
        match pyFloat (pyStrip offset) with
        | none => Except.error PyError.valueError
        | some off =>
          match toPyNum mv with
          | Except.error e => Except.error e
          | Except.ok mult =>
            let result := pyAdd (pyMul num mult) off
            Except.ok (pyRepr num ++ "°C = " ++ fmt2 result ++ "°F")
  | [rate_str, value_str] =>
    match pyFloat (pyStrip value_str) with
    | none => Except.error PyError.valueError
    | some num =>
      match pyFloat rate_str with
      | none => Except.error PyError.valueError
      | some conversion_rate =>
        let result := pyMul num conversion_rate
        let units := ((unit_map.find? (fun kv => kv.1 = rate_str)).map (fun kv => kv.2)).getD
          ("units", "units")
        Except.ok (pyRepr num ++ " " ++ units.1 ++ " = " ++ fmt2 result ++ " " ++ units.2)
  | _ => Except.ok "Error: Invalid number of parameters"

/-- `apply_conversion(rate)`: the body wrapped in the source's
`try/except ValueError/except SyntaxError`.  Any other exception kind
propagates to the caller, exactly as in the Python code. -/
def apply_conversion (rate : String) : Except PyError String :=
  match applyConvBody rate with
  | Except.error PyError.valueError => Except.ok "Error: Please provide valid numbers"
  | Except.error PyError.syntaxError => Except.ok "Error: Invalid conversion rate format"
  | r => r

example : apply_conversion "3.28084,5" = Except.ok "5.0 meters = 16.40 feet" := by decide
example : apply_conversion "9/5,32,20" = Except.ok "20.0°C = 68.00°F" := by decide
example : apply_conversion "9/5,32, 20" = Except.ok "20.0°C = 68.00°F" := by decide
example : apply_conversion "not,a,number" = Except.ok "Error: Please provide valid numbers" := by decide
example : apply_conversion "only_one_field" = Except.ok "Error: Invalid number of parameters" := by decide
example : apply_conversion "x,32,20" = Except.error (PyError.nameError "x") := by decide
example : apply_conversion "2**3,0,1" = Except.ok "1.0°C = 8.00°F" := by decide
example : apply_conversion "not,1,2" = Except.ok "Error: Invalid conversion rate format" := by decide
example : model_memory "Meters TO Feet" = "3.28084" := by decide
example : model_memory "pounds to stones" = "No conversion rate found for pounds to stones" := by decide
example : apply_conversion "3.28084, 100" = Except.ok "100.0 meters = 328.08 feet" := by decide

/-- Model of the `\w` character class of Python's `re` module (Unicode word
characters) as used in `ACTION_PATTERN`.  ASCII alphanumerics and the
underscore, plus the Latin-1 word characters (`ª ² ³ µ ¹ º ¼ ½ ¾` and the
accented letters, excluding `×` and `÷`).  The classification is exact for
all code points below U+0100; higher code points (not exercised by any
theorem below) are treated as non-word. -/
def pyWordChar (c : Char) : Bool :=
  c.isAlphanum || c = '_' ||
  (0x80 ≤ c.val && c.val ≤ 0xFF &&
    (c.val = 0xAA || c.val = 0xB2 || c.val = 0xB3 || c.val = 0xB5 ||
     c.val = 0xB9 || c.val = 0xBA || c.val = 0xBC || c.val = 0xBD ||
     c.val = 0xBE || (0xC0 ≤ c.val && c.val ≠ 0xD7 && c.val ≠ 0xF7)))

/-- Model of `ACTION_PATTERN.match(line)` for the regular expression
`^Action: (\w+): (.*)$` (with its two capture groups): the line must start
with the literal marker, then one or more word characters (the greedy `\w+`
is the maximal run, necessarily followed by the literal `": "` for the
pattern to match), then the argument, which runs to the end of the line —
`.` does not match a newline and `$` also matches just before a single
trailing newline, so a line containing an interior newline never matches
(lines produced by `split("\n")` contain no newline at all). -/
def parseAction (line : String) : Option (String × String) :=
  let cs := line.toList
  if cs.take 8 = "Action: ".toList then
    let rest := cs.drop 8
    let name := rest.takeWhile pyWordChar
    match name, rest.dropWhile pyWordChar with
    | [], _ => none
    | _ :: _, ':' :: ' ' :: arg =>
      if arg.contains '\n' then
        if arg.getLast? = some '\n' && !(arg.dropLast.contains '\n') then
          some (name.asString, arg.dropLast.asString)
        else none
      else some (name.asString, arg.asString)
    | _ :: _, _ => none
  else none

/-- The action-extraction step of `query`: split the response into lines,
keep the matching ones, use the first (`actions[0]`) if any. -/
def firstAction (text : String) : Option (String × String) :=
  (pySplit text '\n').findSome? parseAction

/-- One conversation message (`{"role": ..., "content": ...}`). -/
structure Message where
  role : String
  content : String
deriving DecidableEq, Repr

/-- The `AgentState` dataclass: the message log plus the system prompt. -/
structure AgentState where
  messages : List Message
  system_prompt : String
deriving DecidableEq, Repr

/-- `ReActAgent.__init__`: seed the log with the system message. -/
def ReActAgent.init (system_prompt : String) : AgentState :=
  ⟨[⟨"system", system_prompt⟩], system_prompt⟩

/-- `ReActAgent.add_message`: append a message to the history.  The source
performs no validation of any kind on `role` or `content`. -/
def add_message (st : AgentState) (role content : String) : AgentState :=
  { st with messages := st.messages ++ [⟨role, content⟩] }

/-- Read access to the ordered message log (`agent.state.messages`). -/
def history (st : AgentState) : List Message :=
  st.messages

/-- The tutorial system prompt built by `create_agent` (the Python triple-
quoted literal after `.strip()`; interior lines keep their four-space
indentation). -/
def systemPrompt : String :=
  "You run in a loop of Thought, Action, PAUSE, Observation.\n    At the end of the loop you output an Answer\n    Use Thought to describe your thoughts about the question you have been asked.\n    Use Action to run one of the actions available to you - then return PAUSE.\n    Observation will be the result of running those actions.\n    \n    Your available actions are:\n    \n    model_memory:\n    e.g. model_memory: meters to feet\n    Get the conversion rate for a unit (e.g., meters to feet, kilometers to miles)\n\n    apply_conversion: 3.28084, 5\n    Applies the conversion rate to a value and returns a number\n    \n    No other actions are available to you.\n    \n    Example session #1:\n    Question: Convert 5 meters to feet?\n    \n    Thought: This is a length conversion from meters to feet. First, I need to get the conversion rate\n    Action: get_conversion_rate: meters to feet\n    PAUSE\n\n    You will be called again with this:\n    \n    Observation: 3.28084\n\n    You then output:\n    \n    Thought: Now I can apply this conversion rate to 5 meters\n    Action: apply_conversion: 3.28084, 5\n    PAUSE\n    \n    Observation: 5 meters = 16.40 feet\n    \n    Answer: 5 meters is equal to 16.40 feet  \n\n    Example session #2:\n\n    Question:  Convert 20°C to Fahrenheit?\n    \n    Thought: This is a temperature conversion from Celsius to Fahrenheit. First, I need to get the conversion formula\n    Action: model_memory: celsius to fahrenheit\n    PAUSE\n\n    You will be called again with this:\n    \n    Observation: 9/5,32\n\n    You then output:\n    \n    Thought: Now I can apply this formula to 20°C\n    Action: apply_conversion: 9/5,32, 20\n    PAUSE\n    \n    Observation: 20°C = 68.00°F\n    \n    Answer: 20°C is equal to 68.00°F"

/-- `create_agent()`: a fresh agent seeded with the tutorial prompt. -/
def create_agent : AgentState :=
  ReActAgent.init systemPrompt

/-- The `KNOWN_ACTIONS` table.  `model_memory` is total, so its handler
always returns normally; `apply_conversion` can raise (see above). -/
def KNOWN_ACTIONS : List (String × (String → Except PyError String)) :=
  [ ("model_memory", fun s => Except.ok (model_memory s)),
    ("apply_conversion", apply_conversion) ]

/-- Dictionary lookup in `KNOWN_ACTIONS`. -/
def lookupAction (a : String) : Option (String → Except PyError String) :=
  (KNOWN_ACTIONS.find? (fun kv => kv.1 = a)).map (fun kv => kv.2)

/-- The exceptions the `query` loop can raise: the explicit
`ValueError(f"Unknown action: ...")` for an unregistered action name, or an
exception propagating out of a handler call. -/
inductive AgentError where
  | unknownAction (action input : String) : AgentError
  | toolError (e : PyError) : AgentError
deriving DecidableEq, Repr

/-- The `for turn in range(max_turns)` loop of `query`.  The model
collaborator is an oracle giving the text of the `k`-th completion call;
the second component of the result counts those calls.  Each iteration
appends the prompt as a user message and the completion as an assistant
message (`agent(next_prompt)`), then looks for an action: none ends the
loop returning the history; an unknown name raises; otherwise the handler
runs and its observation becomes the next prompt.  When the turns are
exhausted the history accumulated so far is returned — an observation
computed on the last turn is dropped. -/
def runQuery (responses : ℕ → String) (st : AgentState) (nextPrompt : String)
    (calls : ℕ) : ℕ → (Except AgentError (List Message)) × ℕ
  | 0 => (Except.ok st.messages, calls)
  | fuel + 1 =>
    let st2 := add_message (add_message st "user" nextPrompt) "assistant" (responses calls)
    match firstAction (responses calls) with
    | none => (Except.ok st2.messages, calls + 1)
    | some ai =>
      match lookupAction ai.1 with
      | none => (Except.error (AgentError.unknownAction ai.1 ai.2), calls + 1)
      | some handler =>
        match handler ai.2 with
        | Except.error e => (Except.error (AgentError.toolError e), calls + 1)
        | Except.ok observation =>
          runQuery responses st2 ("Observation: " ++ observation) (calls + 1) fuel

/-- `query(question, max_turns)`: run the loop on a fresh agent.  The
returned pair is the Python return value (or propagated exception) together
with the number of model collaborator calls made. -/
def query (responses : ℕ → String) (question : String) (max_turns : ℕ := 5) :
    (Except AgentError (List Message)) × ℕ :=
  runQuery responses create_agent question 0 max_turns

/-- Does this response's first action dispatch to a handler that returns
normally?  (The condition under which the loop proceeds to its next
iteration.) -/
def dispatchOk (resp : String) : Bool :=
  match firstAction resp with
  | none => false
  | some ai =>
    match lookupAction ai.1 with
    | none => false
    | some handler =>
      match handler ai.2 with
      | Except.ok _ => true
      | Except.error _ => false

example : parseAction "Action: model_memory: meters to feet" =
    some ("model_memory", "meters to feet") := by decide
example : parseAction "Thought: hello" = none := by decide
example : parseAction "Action: apply_conversion: 3.28084, 5" =
    some ("apply_conversion", "3.28084, 5") := by decide
example : parseAction "Action: foo:bar" = none := by decide
example : parseAction "Action: : x" = none := by decide
example : firstAction "Thought: a\nAction: model_memory: meters to feet\nPAUSE" =
    some ("model_memory", "meters to feet") := by decide
example : firstAction "Answer: 42" = none := by decide
example : dispatchOk "Action: model_memory: meters to feet" = true := by decide
example : (query (fun _ => "Answer: done") "q" 5).2 = 1 := by decide
example : ((query (fun _ => "Answer: done") "q" 5).1.map List.length) = Except.ok 3 := by decide
example : (query (fun _ => "Action: bogus: x") "q" 5).1 =
    Except.error (AgentError.unknownAction "bogus" "x") := by decide
example : (query (fun _ => "Action: model_memory: meters to feet") "q" 2).2 = 2 := by decide
example : ((query (fun _ => "Action: model_memory: meters to feet") "q" 2).1.map List.length) =
    Except.ok 5 := by decide

/-- Folding a sequence of `add_message` calls appends the corresponding
messages in order. -/
theorem foldl_add_message (ops : List (String × String)) (st : AgentState) :
    (ops.foldl (fun st rc => add_message st rc.1 rc.2) st).messages =
      st.messages ++ ops.map (fun rc => Message.mk rc.1 rc.2) := by
  induction ops generalizing st with
  | nil => simp
  | cons op rest ih =>
    rw [List.foldl_cons, ih]
    simp [add_message]

/-- C9 (confirmed): for every system prompt and every sequence of appends,
the log starts with the construction-time system message and lists all
appended messages in append order; each single `add_message` extends the
history by exactly one message and leaves every existing message (the prefix)
unchanged. -/
theorem conversation_log_invariants (p : String) (ops : List (String × String)) :
    (history (ops.foldl (fun st rc => add_message st rc.1 rc.2) (ReActAgent.init p)) =
        Message.mk "system" p :: ops.map (fun rc => Message.mk rc.1 rc.2))
    ∧ (history (ops.foldl (fun st rc => add_message st rc.1 rc.2) (ReActAgent.init p))).head? =
        some (Message.mk "system" p)
    ∧ ∀ (st : AgentState) (r c : String),
        (history (add_message st r c)).length = (history st).length + 1
        ∧ (history (add_message st r c)).take (history st).length = history st := by
  refine ⟨?_, ?_, ?_⟩
  · simpa [history, ReActAgent.init] using foldl_add_message ops (ReActAgent.init p)
  · rw [history, foldl_add_message ops (ReActAgent.init p)]
    simp [ReActAgent.init]
  · intro st r c
    constructor
    · simp [history, add_message]
    · simp [history, add_message, List.take_left]

/-- C8 counterexample: appending with the unrecognized role `"banana"`
succeeds — the message is appended and no `InvalidRoleError` (or any other
failure) occurs, because `add_message` performs no validation at all. -/
theorem append_unrecognized_role_succeeds :
    history (add_message (ReActAgent.init "sp") "banana" "hello") =
      [Message.mk "system" "sp", Message.mk "banana" "hello"] := by decide

/-- C8 (amended): `add_message` succeeds for every role string (recognized or
not) and every content string, appending the message verbatim; neither role
nor content is validated. -/
theorem append_no_validation (st : AgentState) (role content : String) :
    history (add_message st role content) = history st ++ [Message.mk role content] := by
  simp [history, add_message]

/-- C5 (confirmed): `apply_conversion("3.28084,5")` returns exactly
`"5.0 meters = 16.40 feet"`; in general, in the 2-field form the output is
the value times the rate formatted to two decimals, with the unit names
looked up in the fixed reverse table keyed by the raw rate field, falling
back to `"units"`/`"units"`. -/
theorem two_field_conversion :
    apply_conversion "3.28084,5" = Except.ok "5.0 meters = 16.40 feet"
    ∧ ∀ (s r v : String) (num cr : PyNum),
        pySplit s ',' = [r, v] →
        pyFloat (pyStrip v) = some num →
        pyFloat r = some cr →
        apply_conversion s = Except.ok
          (pyRepr num ++ " " ++
            ((((unit_map.find? (fun kv => kv.1 = r)).map (fun kv => kv.2)).getD
              ("units", "units")).1) ++
            " = " ++ fmt2 (pyMul num cr) ++ " " ++
            ((((unit_map.find? (fun kv => kv.1 = r)).map (fun kv => kv.2)).getD
              ("units", "units")).2)) := by
  constructor
  · decide
  · intro s r v num cr hs hv hr
    simp [apply_conversion, applyConvBody, hs, hv, hr]

/-- Witness for the general part of `two_field_conversion`, at a rate literal
outside the reverse unit table (exercising the `"units"` fallback). -/
theorem two_field_conversion_witness :
    apply_conversion "2.0,3" = Except.ok "3.0 units = 6.00 units" := by
  have h := two_field_conversion.2 "2.0,3" "2.0" "3" (PyNum.num ⟨3, 1⟩)
    (PyNum.num ⟨20, 10⟩) (by decide) (by decide) (by decide)
  exact h.trans (congrArg Except.ok (by decide))

/-- C6 (confirmed): `apply_conversion("9/5,32,20")` returns exactly
`"20.0°C = 68.00°F"`; the multiplier `"9/5"` is evaluated arithmetically as
a division (value 9/5), and is not a float literal (`float("9/5")` raises). -/
theorem temperature_conversion_example :
    apply_conversion "9/5,32,20" = Except.ok "20.0°C = 68.00°F"
    ∧ pyEval "9/5" = Except.ok (PyVal.vnum ⟨9, 5⟩)
    ∧ pyFloat "9/5" = none := by decide

/-- C7 counterexample: the multiplier `"2**3"` — outside the `<int>/<int>`
pattern — is not rejected: `eval` computes it to 8 and `apply_conversion`
returns a normal conversion result, not an error observation. -/
theorem multiplier_power_computed :
    apply_conversion "2**3,0,1" = Except.ok "1.0°C = 8.00°F"
    ∧ pyEval "2**3" = Except.ok (PyVal.vnum ⟨8, 1⟩) := by decide

/-- C7 (amended): in the 3-field form the multiplier is evaluated by the
general-purpose expression evaluator (`eval`), not by a narrow `<int>/<int>`
divider: whenever the value field parses and the multiplier evaluates to any
number whatsoever (e.g. the power `"2**3"`), the conversion is computed and
formatted normally. -/
theorem multiplier_general_eval (s m o v : String) (num : PyNum) (mv : Frac) (off : PyNum) :
    pySplit s ',' = [m, o, v] →
    pyFloat (pyStrip v) = some num →
    pyEval (pyStrip m) = Except.ok (PyVal.vnum mv) →
    pyFloat (pyStrip o) = some off →
    apply_conversion s = Except.ok
      (pyRepr num ++ "°C = " ++ fmt2 (pyAdd (pyMul num (PyNum.num mv)) off) ++ "°F") := by
  intro hs hv hm ho
  simp [apply_conversion, applyConvBody, hs, hv, hm, ho, toPyNum]

/-- Witness for `multiplier_general_eval` at the power multiplier `"2**3"`. -/
theorem multiplier_general_eval_witness :
    apply_conversion "2**3,0,1" = Except.ok "1.0°C = 8.00°F" := by
  have h := multiplier_general_eval "2**3,0,1" "2**3" "0" "1" (PyNum.num ⟨1, 1⟩) ⟨8, 1⟩
    (PyNum.num ⟨0, 1⟩) (by decide) (by decide) (by decide) (by decide)
  exact h.trans (congrArg Except.ok (by decide))

/-- C1 counterexample: `apply_conversion("x,32,20")` — a non-numeric
(non-evaluable) multiplier field — does raise: `eval("x")` raises
`NameError`, which the handler's `try/except` (catching only `ValueError`
and `SyntaxError`) does not catch, so the exception propagates. -/
theorem apply_conversion_raises_nameError :
    apply_conversion "x,32,20" = Except.error (PyError.nameError "x") := by decide

/-- C1 (amended): a field count outside {2,3} yields the parameter-count
error string; a non-numeric value field (either form), a non-numeric rate
field (2-field form), a syntactically invalid multiplier, and a non-numeric
offset field (after a successful multiplier evaluation) all yield descriptive
error strings rather than raising — but a multiplier whose evaluation raises
an exception other than `ValueError`/`SyntaxError` (e.g. the unbound name
`"x"`) propagates out of `apply_conversion`.  In particular
`apply_conversion("not,a,number")` and `apply_conversion("only_one_field")`
both return error strings. -/
theorem apply_conversion_error_observations :
    (∀ s : String, (pySplit s ',').length ≠ 2 → (pySplit s ',').length ≠ 3 →
        apply_conversion s = Except.ok "Error: Invalid number of parameters")
    ∧ (∀ s r v : String, pySplit s ',' = [r, v] →
        (pyFloat (pyStrip v) = none ∨ pyFloat r = none) →
        apply_conversion s = Except.ok "Error: Please provide valid numbers")
    ∧ (∀ s m o v : String, pySplit s ',' = [m, o, v] → pyFloat (pyStrip v) = none →
        apply_conversion s = Except.ok "Error: Please provide valid numbers")
    ∧ (∀ (s m o v : String) (num : PyNum), pySplit s ',' = [m, o, v] →
        pyFloat (pyStrip v) = some num →
        pyEval (pyStrip m) = Except.error PyError.syntaxError →
        apply_conversion s = Except.ok "Error: Invalid conversion rate format")
    ∧ (∀ (s m o v : String) (num : PyNum) (n : String), pySplit s ',' = [m, o, v] →
        pyFloat (pyStrip v) = some num →
        pyEval (pyStrip m) = Except.error (PyError.nameError n) →
        apply_conversion s = Except.error (PyError.nameError n))
    ∧ (∀ (s m o v : String) (num : PyNum) (mv : PyVal), pySplit s ',' = [m, o, v] →
        pyFloat (pyStrip v) = some num →
        pyEval (pyStrip m) = Except.ok mv →
        pyFloat (pyStrip o) = none →
        apply_conversion s = Except.ok "Error: Please provide valid numbers")
    ∧ apply_conversion "not,a,number" = Except.ok "Error: Please provide valid numbers"
    ∧ apply_conversion "only_one_field" = Except.ok "Error: Invalid number of parameters" := by
  refine ⟨?_, ?_, ?_, ?_, ?_, ?_, by decide, by decide⟩
  · intro s h2 h3
    match hp : pySplit s ',' with
    | [] => simp [apply_conversion, applyConvBody, hp]
    | [a] => simp [apply_conversion, applyConvBody, hp]
    | [a, b] => rw [hp] at h2; simp at h2
    | [a, b, c] => rw [hp] at h3; simp at h3
    | a :: b :: c :: d :: t => simp [apply_conversion, applyConvBody, hp]
  · intro s r v hs hor
    match hv : pyFloat (pyStrip v) with
    | none => simp [apply_conversion, applyConvBody, hs, hv]
    | some num =>
      match hor with
      | Or.inl h => rw [hv] at h; exact absurd h (by simp)
      | Or.inr hr => simp [apply_conversion, applyConvBody, hs, hv, hr]
  · intro s m o v hs hv
    simp [apply_conversion, applyConvBody, hs, hv]
  · intro s m o v num hs hv hm
    simp [apply_conversion, applyConvBody, hs, hv, hm]
  · intro s m o v num n hs hv hm
    simp [apply_conversion, applyConvBody, hs, hv, hm]
  · intro s m o v num mv hs hv hm ho
    simp [apply_conversion, applyConvBody, hs, hv, hm, ho]

/-- Witness for `apply_conversion_error_observations`, exercising the
field-count, non-numeric-value, bad-multiplier, name-error and bad-offset
conjuncts at concrete inputs. -/
theorem apply_conversion_error_observations_witness :
    apply_conversion "1,2,3,4" = Except.ok "Error: Invalid number of parameters"
    ∧ apply_conversion "3.3,abc" = Except.ok "Error: Please provide valid numbers"
    ∧ apply_conversion "not,1,2" = Except.ok "Error: Invalid conversion rate format"
    ∧ apply_conversion "y,1,2" = Except.error (PyError.nameError "y")
    ∧ apply_conversion "2,zz,3" = Except.ok "Error: Please provide valid numbers" := by
  refine ⟨?_, ?_, ?_, ?_, ?_⟩
  · exact apply_conversion_error_observations.1 "1,2,3,4" (by decide) (by decide)
  · exact apply_conversion_error_observations.2.1 "3.3,abc" "3.3" "abc" (by decide)
      (Or.inl (by decide))
  · exact apply_conversion_error_observations.2.2.2.1 "not,1,2" "not" "1" "2"
      (PyNum.num ⟨2, 1⟩) (by decide) (by decide) (by decide)
  · exact apply_conversion_error_observations.2.2.2.2.1 "y,1,2" "y" "1" "2"
      (PyNum.num ⟨2, 1⟩) "y" (by decide) (by decide) (by decide)
  · exact apply_conversion_error_observations.2.2.2.2.2.1 "2,zz,3" "2" "zz" "3"
      (PyNum.num ⟨3, 1⟩) (PyVal.vnum ⟨2, 1⟩) (by decide) (by decide) (by decide) (by decide)

/-- `takeWhile`/`dropWhile` split an append at the first failing element. -/
theorem takeWhile_append_head_false {p : Char → Bool} (l : List Char) (c : Char)
    (r : List Char) (hl : ∀ x ∈ l, p x = true) (hc : p c = false) :
    (l ++ c :: r).takeWhile p = l ∧ (l ++ c :: r).dropWhile p = c :: r := by
  induction l with
  | nil => simp [List.takeWhile_cons, List.dropWhile_cons, hc]
  | cons a t ih =>
    have ha : p a = true := hl a (by simp)
    have iht := ih (fun x hx => hl x (by simp [hx]))
    simp [List.takeWhile_cons, List.dropWhile_cons, ha, iht.1, iht.2]

/-- Every element a `takeWhile` keeps satisfies the predicate. -/
theorem all_takeWhile {p : Char → Bool} (l : List Char) :
    (l.takeWhile p).all p = true := by
  induction l with
  | nil => simp
  | cons a t ih =>
    by_cases ha : p a = true
    · simp [List.takeWhile_cons, ha, ih]
    · rw [List.takeWhile_cons, if_neg ha]
      simp

/-- `findSome?` returns the image of the first element on which `f` fires. -/
theorem findSome?_first {α β : Type} (f : α → Option β) (l₁ : List α) (x : α)
    (l₂ : List α) (b : β) (h1 : ∀ y ∈ l₁, f y = none) (hx : f x = some b) :
    (l₁ ++ x :: l₂).findSome? f = some b := by
  induction l₁ with
  | nil => simp [List.findSome?_cons, hx]
  | cons a t ih =>
    have ha : f a = none := h1 a (by simp)
    simp [List.findSome?_cons, ha]
    exact ih (fun y hy => h1 y (by simp [hy]))

/-- C3 counterexample: the line `"Action: é: x"` is treated as an action by
`ACTION_PATTERN` (Python's `\w` matches the Unicode letter `é`), although its
name does not consist of `[A-Za-z0-9_]` characters — refuting the claimed
"if and only if" with that ASCII class. -/
theorem action_grammar_unicode_name :
    parseAction "Action: é: x" = some ("é", "x")
    ∧ "é".toList.all (fun c => c.isAlphanum || c = '_') = false := by decide

/-- Rebuilding a string from its character list is the identity. -/
theorem asString_toList (s : String) : s.toList.asString = s := rfl

/-- Strings with the same character list are equal. -/
theorem string_eq_of_toList {a b : String} (h : a.toList = b.toList) : a = b := by
  cases a
  cases b
  exact congrArg String.mk (by simpa [String.toList] using h)

/-- Soundness of the action grammar: a well-formed action line parses to its
name and argument (the name run is maximal because the following `':'` is not
a word character). -/
theorem parseAction_sound (nm arg : String) (hne : nm ≠ "")
    (hall : nm.toList.all pyWordChar = true)
    (hnl : arg.toList.contains '\n' = false) :
    parseAction ("Action: " ++ nm ++ ": " ++ arg) = some (nm, arg) := by
  have hdata : ("Action: " ++ nm ++ ": " ++ arg).toList
      = "Action: ".toList ++ (nm.toList ++ ':' :: ' ' :: arg.toList) := by
    have h2 : (": " : String).toList = [ ':', ' ' ] := by decide
    simp [String.toList, String.data_append, h2]
  have hlen : ("Action: ".toList).length = 8 := by decide
  have h8 : (("Action: ".toList ++ (nm.toList ++ ':' :: ' ' :: arg.toList)).take 8)
      = "Action: ".toList := by
    rw [← hlen, List.take_left]
  have hd8 : (("Action: ".toList ++ (nm.toList ++ ':' :: ' ' :: arg.toList)).drop 8)
      = nm.toList ++ ':' :: ' ' :: arg.toList := by
    rw [← hlen, List.drop_left]
  have hsplit := takeWhile_append_head_false (p := pyWordChar) nm.toList ':'
    (' ' :: arg.toList) (fun x hx => List.all_eq_true.mp hall x hx) (by decide)
  have hlist : nm.toList ≠ [] := by
    intro h
    exact hne (by rw [← asString_toList nm, h]; rfl)
  obtain ⟨c, cs', hc⟩ : ∃ c cs', nm.toList = c :: cs' := by
    cases hx : nm.toList with
    | nil => exact absurd hx hlist
    | cons c cs' => exact ⟨c, cs', rfl⟩
  rw [parseAction, hdata, h8, if_pos rfl, hd8]
  have h1 : List.takeWhile pyWordChar (nm.data ++ ':' :: ' ' :: arg.data) = nm.data :=
    hsplit.1
  have h2 : List.dropWhile pyWordChar (nm.data ++ ':' :: ' ' :: arg.data) =
      ':' :: ' ' :: arg.data := hsplit.2
  have hcD : nm.data = c :: cs' := hc
  have hmem : ¬ ('\n' ∈ arg.data) := by simpa using hnl
  have hnm : nm.data.asString = nm := rfl
  have harg : arg.data.asString = arg := rfl
  simp only [String.toList]
  rw [h1, h2, hcD]
  simp [hmem]
  exact ⟨by rw [← hcD]; exact hnm, harg⟩

/-- Completeness of the action grammar: any line the parser accepts starts
with the marker, has a nonempty word-character name, and is exactly
`"Action: " ++ name ++ ": " ++ argument` (possibly with one trailing
newline, which `$` tolerates). -/
theorem parseAction_complete (line nm arg : String)
    (h : parseAction line = some (nm, arg)) :
    nm ≠ "" ∧ nm.toList.all pyWordChar = true ∧
      (line = "Action: " ++ nm ++ ": " ++ arg ∨
       line = "Action: " ++ nm ++ ": " ++ arg ++ "\n") := by
  rw [parseAction] at h
  simp only [String.toList] at h
  by_cases h8 : line.data.take 8 = "Action: ".data
  case neg =>
    rw [if_neg h8] at h
    exact Option.noConfusion h
  rw [if_pos h8] at h
  split at h
  · exact Option.noConfusion h
  case _ head tail arg0 heq1 heq2 =>
    have hrest : List.drop 8 line.data =
        List.takeWhile pyWordChar (List.drop 8 line.data) ++ (':' :: ' ' :: arg0) := by
      conv_lhs => rw [← List.takeWhile_append_dropWhile (p := pyWordChar)
        (l := List.drop 8 line.data)]
      rw [heq2]
    have hlineD : line.data = "Action: ".data ++
        (List.takeWhile pyWordChar (List.drop 8 line.data) ++ (':' :: ' ' :: arg0)) := by
      conv_lhs => rw [← List.take_append_drop 8 line.data]
      rw [h8, ← hrest]
    have hcolon : (": " : String).data = [ ':', ' ' ] := by decide
    have hnl : ("\n" : String).data = [ '\n' ] := by decide
    split at h
    · -- the argument group is captured before a single trailing newline
      split at h
      · rename_i hcnl hcond
        obtain ⟨hnm, harg⟩ := Prod.mk.inj (Option.some.inj h)
        have hnmdata : nm.data = List.takeWhile pyWordChar (List.drop 8 line.data) := by
          rw [← hnm]
          exact rfl
        have hne : nm ≠ "" := by
          intro hx
          rw [hx] at hnmdata
          rw [heq1] at hnmdata
          exact List.noConfusion hnmdata.symm
        have hall : nm.toList.all pyWordChar = true := by
          show nm.data.all pyWordChar = true
          rw [hnmdata]
          exact all_takeWhile _
        have hc2 : arg0.getLast? = some '\n' ∧ ¬ '\n' ∈ arg0.dropLast := by
          simpa using hcond
        rcases List.eq_nil_or_concat arg0 with hnil | ⟨L, b, hLb⟩
        · have := hc2.1
          rw [hnil] at this
          exact Option.noConfusion this
        · have hb : b = '\n' := by
            have hx := hc2.1
            rw [hLb] at hx
            simpa using hx
          have hargdata : arg.data = L := by
            rw [← harg]
            show arg0.dropLast = L
            rw [hLb]
            simp
          refine ⟨hne, hall, Or.inr ?_⟩
          apply string_eq_of_toList
          show line.data = ("Action: " ++ nm ++ ": " ++ arg ++ "\n").data
          rw [hlineD, ← hnmdata]
          simp [String.data_append, hcolon, hnl, hargdata, hLb, hb]
      · exact Option.noConfusion h
    · -- no newline in the argument group
      rename_i hcnl
      obtain ⟨hnm, harg⟩ := Prod.mk.inj (Option.some.inj h)
      have hnmdata : nm.data = List.takeWhile pyWordChar (List.drop 8 line.data) := by
        rw [← hnm]
        exact rfl
      have hne : nm ≠ "" := by
        intro hx
        rw [hx] at hnmdata
        rw [heq1] at hnmdata
        exact List.noConfusion hnmdata.symm
      have hall : nm.toList.all pyWordChar = true := by
        show nm.data.all pyWordChar = true
        rw [hnmdata]
        exact all_takeWhile _
      have hargdata : arg.data = arg0 := by
        rw [← harg]
        exact rfl
      refine ⟨hne, hall, Or.inl ?_⟩
      apply string_eq_of_toList
      show line.data = ("Action: " ++ nm ++ ": " ++ arg).data
      rw [hlineD, ← hnmdata]
      simp [String.data_append, hcolon, hargdata]
  · exact Option.noConfusion h

/-- If `f` fires on no element, `findSome?` returns nothing. -/
theorem findSome?_none {α β : Type} (f : α → Option β) (l : List α)
    (h : ∀ x ∈ l, f x = none) : l.findSome? f = none := by
  induction l with
  | nil => simp
  | cons a t ih =>
    have ha := h a (by simp)
    simp [List.findSome?_cons, ha]
    exact fun x hx => h x (by simp [hx])

/-- C3 (amended): the response parser treats a line as an action precisely
when it starts with the literal marker `"Action: "` followed by a nonempty
name of Python word characters (`\w` — the ASCII class `[A-Za-z0-9_]`
*plus* further Unicode word characters such as accented letters), then
`": "`, then the rest of the line as the argument; with zero matching lines
it reports no action (the normal termination signal), and with one or more
matching lines it returns the name and argument of the first matching line
and ignores the rest. -/
theorem action_line_grammar :
    (∀ nm arg : String, nm ≠ "" → nm.toList.all pyWordChar = true →
        arg.toList.contains '\n' = false →
        parseAction ("Action: " ++ nm ++ ": " ++ arg) = some (nm, arg))
    ∧ (∀ line nm arg : String, parseAction line = some (nm, arg) →
        nm ≠ "" ∧ nm.toList.all pyWordChar = true ∧
          (line = "Action: " ++ nm ++ ": " ++ arg ∨
           line = "Action: " ++ nm ++ ": " ++ arg ++ "\n"))
    ∧ (∀ text : String, (∀ l ∈ pySplit text '\n', parseAction l = none) →
        firstAction text = none)
    ∧ (∀ (text : String) (l₁ : List String) (l : String) (l₂ : List String)
        (a : String × String), pySplit text '\n' = l₁ ++ l :: l₂ →
        (∀ y ∈ l₁, parseAction y = none) → parseAction l = some a →
        firstAction text = some a) := by
  refine ⟨parseAction_sound, parseAction_complete, ?_, ?_⟩
  · intro text h
    rw [firstAction]
    exact findSome?_none parseAction (pySplit text '\n') h
  · intro text l₁ l l₂ a hsp h1 hl
    rw [firstAction, hsp]
    exact findSome?_first parseAction l₁ l l₂ a h1 hl

/-- Witness for `action_line_grammar`: a concrete well-formed line parses,
and with several action lines present the first one wins. -/
theorem action_line_grammar_witness :
    parseAction ("Action: " ++ "model_memory" ++ ": " ++ "meters to feet") =
      some ("model_memory", "meters to feet")
    ∧ firstAction "Thought: x\nAction: a1: one\nAction: b2: two" = some ("a1", "one") := by
  constructor
  · exact action_line_grammar.1 "model_memory" "meters to feet" (by decide) (by decide)
      (by decide)
  · exact action_line_grammar.2.2.2 "Thought: x\nAction: a1: one\nAction: b2: two"
      [ "Thought: x" ] "Action: a1: one" [ "Action: b2: two" ] ("a1", "one")
      (by decide) (by decide) (by decide)

/-- Each loop iteration makes exactly one model call, so `runQuery` makes at
most `fuel` calls beyond the `calls` already counted. -/
theorem runQuery_calls_le (responses : ℕ → String) :
    ∀ (f : ℕ) (st : AgentState) (p : String) (c : ℕ),
      (runQuery responses st p c f).2 ≤ c + f := by
  intro f
  induction f with
  | zero => intro st p c; simp [runQuery]
  | succ f ih =>
    intro st p c
    rw [runQuery]
    cases hfa : firstAction (responses c) with
    | none => simp [hfa]
    | some ai =>
      cases hla : lookupAction ai.1 with
      | none => simp [hfa, hla]
      | some handler =>
        cases hh : handler ai.2 with
        | error e => simp [hfa, hla, hh]
        | ok obs =>
          simp only [hfa, hla, hh]
          have := ih (add_message (add_message st "user" p) "assistant" (responses c))
            ("Observation: " ++ obs) (c + 1)
          omega

/-- If the first `fuel` responses all dispatch successfully, the loop runs to
exhaustion: it returns the accumulated history (two messages per turn) with
exactly `fuel` further model calls, raising nothing. -/
theorem runQuery_all_ok (responses : ℕ → String) :
    ∀ (f : ℕ) (st : AgentState) (p : String) (c : ℕ),
      (∀ k, k < f → dispatchOk (responses (c + k)) = true) →
      ∃ ms, runQuery responses st p c f = (Except.ok ms, c + f)
        ∧ ms.length = st.messages.length + 2 * f := by
  intro f
  induction f with
  | zero =>
    intro st p c _
    exact ⟨st.messages, by simp [runQuery], by simp⟩
  | succ f ih =>
    intro st p c H
    have h0 := H 0 (by omega)
    rw [Nat.add_zero] at h0
    cases hfa : firstAction (responses c) with
    | none => simp [dispatchOk, hfa] at h0
    | some ai =>
      cases hla : lookupAction ai.1 with
      | none => simp [dispatchOk, hfa, hla] at h0
      | some handler =>
        cases hh : handler ai.2 with
        | error e => simp [dispatchOk, hfa, hla, hh] at h0
        | ok obs =>
          obtain ⟨ms, hrun, hlen⟩ := ih
            (add_message (add_message st "user" p) "assistant" (responses c))
            ("Observation: " ++ obs) (c + 1)
            (fun k hk => by
              have := H (k + 1) (by omega)
              rwa [show c + (k + 1) = c + 1 + k by omega] at this)
          refine ⟨ms, ?_, ?_⟩
          · rw [runQuery]
            simp only [hfa, hla, hh]
            rw [hrun]
            have hc : c + 1 + f = c + (f + 1) := by omega
            rw [hc]
          · simp only [add_message] at hlen
            simp only [hlen]
            simp
            omega

/-- If the first `i` responses all dispatch successfully, running with fuel
`f ≥ i` is the same as running the remaining `f - i` turns from the state
accumulated after those `i` turns (two more messages per turn). -/
theorem runQuery_skip (responses : ℕ → String) :
    ∀ (i f : ℕ) (st : AgentState) (p : String) (c : ℕ), i ≤ f →
      (∀ k, k < i → dispatchOk (responses (c + k)) = true) →
      ∃ st2 p2, runQuery responses st p c f = runQuery responses st2 p2 (c + i) (f - i)
        ∧ st2.messages.length = st.messages.length + 2 * i := by
  intro i
  induction i with
  | zero =>
    intro f st p c _ _
    exact ⟨st, p, by simp, by simp⟩
  | succ i ih =>
    intro f st p c hif H
    obtain ⟨f', rfl⟩ : ∃ f', f = f' + 1 := ⟨f - 1, by omega⟩
    have h0 := H 0 (by omega)
    rw [Nat.add_zero] at h0
    cases hfa : firstAction (responses c) with
    | none => simp [dispatchOk, hfa] at h0
    | some ai =>
      cases hla : lookupAction ai.1 with
      | none => simp [dispatchOk, hfa, hla] at h0
      | some handler =>
        cases hh : handler ai.2 with
        | error e => simp [dispatchOk, hfa, hla, hh] at h0
        | ok obs =>
          obtain ⟨st2, p2, heq, hlen⟩ := ih f'
            (add_message (add_message st "user" p) "assistant" (responses c))
            ("Observation: " ++ obs) (c + 1) (by omega)
            (fun k hk => by
              have := H (k + 1) (by omega)
              rwa [show c + (k + 1) = c + 1 + k by omega] at this)
          refine ⟨st2, p2, ?_, ?_⟩
          · rw [runQuery]
            simp only [hfa, hla, hh]
            rw [heq]
            have h1 : c + 1 + i = c + (i + 1) := by omega
            have h2 : f' - i = f' + 1 - (i + 1) := by omega
            rw [h1, h2]
          · simp only [add_message] at hlen
            simp only [hlen]
            simp
            omega

/-- C2 (confirmed): with `max_turns = N`, `query` invokes the model
collaborator at most `N` times; and if every iteration finds a successfully
dispatching action (so no final answer ever appears), the loop stops after
exactly `N` iterations and returns the conversation accumulated so far
(system message plus two messages per turn) without raising. -/
theorem query_call_bound (responses : ℕ → String) (question : String) (N : ℕ) :
    (query responses question N).2 ≤ N
    ∧ ((∀ k, k < N → dispatchOk (responses k) = true) →
        ∃ ms, query responses question N = (Except.ok ms, N) ∧ ms.length = 2 * N + 1) := by
  constructor
  · have h := runQuery_calls_le responses N create_agent question 0
    simpa [query] using h
  · intro H
    obtain ⟨ms, hrun, hlen⟩ := runQuery_all_ok responses N create_agent question 0
      (fun k hk => by simpa using H k hk)
    refine ⟨ms, ?_, ?_⟩
    · simpa [query] using hrun
    · simp [create_agent, ReActAgent.init] at hlen
      omega

/-- Witness for `query_call_bound`: a collaborator that always answers with
a `model_memory` action exhausts `max_turns = 2` after exactly two model
calls, returning the five accumulated messages. -/
theorem query_call_bound_witness :
    ∃ ms, query (fun _ => "Action: model_memory: meters to feet")
        "Convert 10 meters to feet" 2 = (Except.ok ms, 2) ∧ ms.length = 2 * 2 + 1 :=
  (query_call_bound (fun _ => "Action: model_memory: meters to feet")
    "Convert 10 meters to feet" 2).2 (by decide)

/-- C4 (confirmed): if at some turn the parsed action's name is not a key of
`KNOWN_ACTIONS`, `query` raises the fatal unknown-action error immediately —
it propagates to the caller with no further model calls and no handler
dispatch; if the name is registered, no such error occurs and the matching
handler is invoked with the parsed argument (its error propagates, and its
observation becomes the next turn's prompt). -/
theorem unknown_action_fatal (responses : ℕ → String) (question : String)
    (N i : ℕ) (a inp : String) (hiN : i < N)
    (hpre : ∀ k, k < i → dispatchOk (responses k) = true)
    (hfa : firstAction (responses i) = some (a, inp)) :
    (lookupAction a = none →
        query responses question N = (Except.error (AgentError.unknownAction a inp), i + 1))
    ∧ (∀ handler, lookupAction a = some handler →
        (∀ e, handler inp = Except.error e →
            query responses question N = (Except.error (AgentError.toolError e), i + 1))
        ∧ (∀ obs, handler inp = Except.ok obs → ∃ st2,
            query responses question N =
              runQuery responses st2 ("Observation: " ++ obs) (i + 1) (N - (i + 1))
            ∧ st2.messages.length = 2 * (i + 1) + 1)) := by
  obtain ⟨st2, p2, heq, hlen⟩ := runQuery_skip responses i N create_agent question 0
    (le_of_lt hiN) (fun k hk => by simpa using hpre k hk)
  have hquery : query responses question N = runQuery responses st2 p2 i (N - i) := by
    rw [query]
    simpa using heq
  obtain ⟨M, hM⟩ : ∃ M, N - i = M + 1 := ⟨N - i - 1, by omega⟩
  have hlen2 : st2.messages.length = 2 * i + 1 := by
    simp [create_agent, ReActAgent.init] at hlen
    omega
  constructor
  · intro hla
    rw [hquery, hM, runQuery]
    simp [hfa, hla]
  · intro handler hla
    constructor
    · intro e he
      rw [hquery, hM, runQuery]
      simp [hfa, hla, he]
    · intro obs hobs
      refine ⟨add_message (add_message st2 "user" p2) "assistant" (responses i), ?_, ?_⟩
      · rw [hquery, hM, runQuery]
        simp only [hfa, hla, hobs]
        have : M = N - (i + 1) := by omega
        rw [this]
      · simp [add_message, hlen2]
        omega

/-- Witness for `unknown_action_fatal`: after one successful `model_memory`
turn, a response naming the unregistered action `bogus` aborts the query
with the unknown-action error after its second model call. -/
theorem unknown_action_fatal_witness :
    query (fun k => if k = 0 then "Action: model_memory: celsius to fahrenheit"
        else "Action: bogus: 42") "q" 3 =
      (Except.error (AgentError.unknownAction "bogus" "42"), 2) :=
  (unknown_action_fatal
    (fun k => if k = 0 then "Action: model_memory: celsius to fahrenheit"
      else "Action: bogus: 42")
    "q" 3 1 "bogus" "42" (by omega) (by decide) (by decide)).1 rfl

/-- C10 (confirmed): when the response of the final permitted iteration
(iteration `N` of `max_turns = N`) still contains a registered action,
`query` does dispatch its handler (an error from it propagates), but a
computed observation is never appended: the loop exits, returning a history
of `2N + 1` messages that ends with the assistant message holding the action
line — the final observation is silently discarded. -/
theorem final_turn_observation_discarded (responses : ℕ → String) (question : String)
    (N : ℕ) (a inp : String) (handler : String → Except PyError String)
    (hN : 0 < N)
    (hpre : ∀ k, k < N - 1 → dispatchOk (responses k) = true)
    (hfa : firstAction (responses (N - 1)) = some (a, inp))
    (hla : lookupAction a = some handler) :
    (∀ obs, handler inp = Except.ok obs → ∃ ms,
        query responses question N = (Except.ok ms, N)
        ∧ ms.length = 2 * N + 1
        ∧ ms.getLast? = some (Message.mk "assistant" (responses (N - 1))))
    ∧ (∀ e, handler inp = Except.error e →
        query responses question N = (Except.error (AgentError.toolError e), N)) := by
  obtain ⟨st2, p2, heq, hlen⟩ := runQuery_skip responses (N - 1) N create_agent question 0
    (by omega) (fun k hk => by simpa using hpre k hk)
  have hquery : query responses question N = runQuery responses st2 p2 (N - 1) (N - (N - 1)) := by
    rw [query]
    simpa using heq
  have hone : N - (N - 1) = 1 := by omega
  have hlen2 : st2.messages.length = 2 * (N - 1) + 1 := by
    simp [create_agent, ReActAgent.init] at hlen
    omega
  rw [hone] at hquery
  constructor
  · intro obs hobs
    refine ⟨(add_message (add_message st2 "user" p2) "assistant" (responses (N - 1))).messages,
      ?_, ?_, ?_⟩
    · rw [hquery, runQuery]
      simp only [hfa, hla, hobs]
      rw [runQuery]
      have : N - 1 + 1 = N := by omega
      rw [this]
    · simp [add_message, hlen2]
      omega
    · simp [add_message]
  · intro e he
    rw [hquery, runQuery]
    simp only [hfa, hla, he]
    have : N - 1 + 1 = N := by omega
    rw [this]

/-- Witness for `final_turn_observation_discarded` with `max_turns = 1`: the
single response carries a `model_memory` action; its observation is computed
but dropped, and the returned history ends with that assistant message. -/
theorem final_turn_observation_discarded_witness :
    ∃ ms, query (fun _ => "Action: model_memory: meters to feet") "Convert" 1 =
        (Except.ok ms, 1)
      ∧ ms.length = 2 * 1 + 1
      ∧ ms.getLast? = some (Message.mk "assistant"
          "Action: model_memory: meters to feet") :=
  (final_turn_observation_discarded (fun _ => "Action: model_memory: meters to feet")
    "Convert" 1 "model_memory" "meters to feet"
    (fun s => Except.ok (model_memory s)) (by omega)
    (fun k hk => absurd hk (by omega)) (by decide) rfl).1 "3.28084" (by decide)
